import Mathlib

/-!
# Snippetbox: the snippet store and its request handlers

A shallow embedding of `internal/models/snippets.go`, `internal/models/errors.go`
and `cmd/web/handlers.go`.

* Go values `(x, err)` are kept as pairs whose components are `Option`s, so that a
  nil pointer / nil slice / nil error is `none` and can be told apart from an empty
  slice `some []`.
* `time.Time` and the `DATETIME` columns are whole seconds since the epoch (UTC).
* The three SQL statements are given their relational meaning over a list of rows.
* The database connection may fail: the `Conn` record says what the driver does
  during one call (statement failure, scan failure, broken iteration).
* A handler is the ordered list of effects it performs on its collaborators
  (store calls, session writes, the response).
-/

namespace Snippetbox

/-! ## Errors -/

/-- Errors raised by `database/sql` and the driver. `ErrNoRows` is `sql.ErrNoRows`. -/
inductive SqlErr where
  | ErrNoRows
  | fault (msg : String)
  | wrap (msg : String) (inner : SqlErr)
  deriving DecidableEq

/-- Go `error` values seen by the application: the sentinels of
`internal/models/errors.go`, errors coming from the database layer, and others. -/
inductive GoError where
  | ErrNoRecord
  | ErrInvalidCredentials
  | ErrDuplicateEmail
  | sql (e : SqlErr)
  | other (msg : String)
  | wrap (msg : String) (inner : GoError)
  deriving DecidableEq

/-- The test `errors.Is(err, sql.ErrNoRows)`: walks the chain of wrapped errors. -/
def SqlErr.isErrNoRows : SqlErr → Bool
  | .ErrNoRows => true
  | .fault _ => false
  | .wrap _ inner => inner.isErrNoRows

/-- The test `errors.Is(err, models.ErrNoRecord)`. -/
def GoError.isErrNoRecord : GoError → Bool
  | .ErrNoRecord => true
  | .wrap _ inner => inner.isErrNoRecord
  | _ => false

/-! ## Data model -/

/-- Seconds in one day: `INTERVAL n DAY` on a UTC `DATETIME`. -/
def secondsPerDay : Int := 86400

/-- A row of the `snippets` table (columns id, title, content, created, expires). -/
structure Row where
  id : Int
  title : String
  content : String
  created : Int
  expires : Int
  deriving DecidableEq

/-- The Go struct `Snippet`. -/
structure Snippet where
  ID : Int
  Title : String
  Content : String
  Created : Int
  Expires : Int
  deriving DecidableEq

/-- What `Scan(&s.ID, &s.Title, &s.Content, &s.Created, &s.Expires)` stores into a
zeroed `Snippet` when the row converts without error. -/
def Row.scanInto (r : Row) : Snippet :=
  { ID := r.id, Title := r.title, Content := r.content,
    Created := r.created, Expires := r.expires }

/-- State of the database behind `SnippetModel.DB`.
Modelled from the spec: the table definition is not part of the sources; the
identifier is store-assigned, unique and monotonically assigned, which is kept as
an auto-increment counter `nextId`. -/
structure DB where
  snippets : List Row
  nextId : Int
  deriving DecidableEq

/-- Identifiers are unique and all below the auto-increment counter. -/
def DB.wf (db : DB) : Prop :=
  (db.snippets.map Row.id).Nodup ∧ ∀ r ∈ db.snippets, r.id < db.nextId

instance (db : DB) : Decidable db.wf := by
  unfold DB.wf; exact inferInstance

/-- What the connection does during one call of a store method. -/
structure Conn where
  /-- value of `UTC_TIMESTAMP()` for the statement -/
  now : Int
  /-- the statement fails: returned by `Exec` and `Query`, deferred to `Scan` by `QueryRow` -/
  stmtErr : Option SqlErr
  /-- `LastInsertId()` fails -/
  idErr : Option SqlErr
  /-- `Scan` of the k-th delivered row fails -/
  scanErr : Nat → Option SqlErr
  /-- the iteration breaks after k rows and `rows.Err()` reports the error -/
  iterErr : Option (Nat × SqlErr)

/-- A connection on which nothing fails. -/
def Conn.healthy (now : Int) : Conn :=
  { now := now, stmtErr := none, idErr := none, scanErr := fun _ => none, iterErr := none }

/-! ## The three SQL statements -/

/-- The predicate `expires > UTC_TIMESTAMP()`. -/
def Row.live (now : Int) (r : Row) : Bool := decide (r.expires > now)

/-- Relational meaning of
`INSERT INTO snippets (title, content, created, expires)
 VALUES(?, ?, UTC_TIMESTAMP(), DATE_ADD(UTC_TIMESTAMP(), INTERVAL ? DAY))`:
one row is appended; the result carries the assigned identifier. -/
def DB.insertStmt (db : DB) (now : Int) (title content : String) (expires : Int) : DB × Int :=
  ({ snippets := db.snippets ++
       [{ id := db.nextId, title := title, content := content,
          created := now, expires := now + expires * secondsPerDay }],
     nextId := db.nextId + 1 },
   db.nextId)

/-- Relational meaning of
`SELECT id, title, content, created, expires FROM snippets
 WHERE expires > UTC_TIMESTAMP() AND id = ?`. -/
def DB.selectById (db : DB) (now : Int) (id : Int) : List Row :=
  db.snippets.filter (fun r => r.live now && decide (r.id = id))

/-- Relational meaning of
`SELECT id, title, content, created, expires FROM snippets
 WHERE expires > UTC_TIMESTAMP() ORDER BY id DESC LIMIT 10`. -/
def DB.selectLatest (db : DB) (now : Int) : List Row :=
  ((db.snippets.filter (fun r => r.live now)).insertionSort (fun a b => b.id ≤ a.id)).take 10

/-- The part `WHERE expires > UTC_TIMESTAMP() ORDER BY id DESC` of the statement,
before `LIMIT 10`. -/
def DB.liveSorted (db : DB) (now : Int) : List Row :=
  (db.snippets.filter (fun r => r.live now)).insertionSort (fun a b => b.id ≤ a.id)

instance : IsTotal Row (fun a b => b.id ≤ a.id) := ⟨fun a b => Int.le_total b.id a.id⟩

instance : IsTrans Row (fun a b => b.id ≤ a.id) := ⟨fun _ _ _ h1 h2 => Int.le_trans h2 h1⟩

/-! ## database/sql objects -/

/-- A `sql.Result`: what `LastInsertId()` returns. -/
structure Result where
  LastInsertId : Except SqlErr Int

/-- A `*sql.Rows` cursor: the rows that `Next()` delivers, each with the outcome of
its `Scan`, and what `Err()` reports once `Next()` has returned false. -/
structure Rows where
  items : List (Except SqlErr Snippet)
  err : Option SqlErr

/-- `DB.Exec` for the insert statement. -/
def DB.Exec (db : DB) (c : Conn) (title content : String) (expires : Int) :
    DB × Except SqlErr Result :=
  match c.stmtErr with
  | some e => (db, .error e)
  | none =>
    let (db1, id) := db.insertStmt c.now title content expires
    (db1, .ok { LastInsertId := match c.idErr with
                                | some e => .error e
                                | none => .ok id })

/-- `DB.QueryRow(stmt, id)` followed by `row.Scan(...)`: a deferred statement error,
`sql.ErrNoRows` when the result is empty, otherwise the scan of the first row. -/
def DB.QueryRowScan (db : DB) (c : Conn) (id : Int) : Except SqlErr Snippet :=
  match c.stmtErr with
  | some e => .error e
  | none =>
    match db.selectById c.now id with
    | [] => .error .ErrNoRows
    | r :: _ =>
      match c.scanErr 0 with
      | some e => .error e
      | none => .ok r.scanInto

/-- Outcome of scanning the delivered rows, numbered from `k`. -/
def scanItems (c : Conn) : Nat → List Row → List (Except SqlErr Snippet)
  | _, [] => []
  | k, r :: rs =>
    (match c.scanErr k with
     | some e => .error e
     | none => .ok r.scanInto) :: scanItems c (k + 1) rs

/-- `DB.Query` for the latest statement. -/
def DB.Query (db : DB) (c : Conn) : Except SqlErr Rows :=
  match c.stmtErr with
  | some e => .error e
  | none =>
    match c.iterErr with
    | some (k, e) => .ok { items := scanItems c 0 ((db.selectLatest c.now).take k), err := some e }
    | none => .ok { items := scanItems c 0 (db.selectLatest c.now), err := none }

/-! ## SnippetModel -/

/-- `SnippetModel.Insert`: returns `(id, err)` and the new database state. -/
def Insert (db : DB) (c : Conn) (title content : String) (expires : Int) :
    DB × Int × Option GoError :=
  match db.Exec c title content expires with
  | (db1, .error e) => (db1, 0, some (.sql e))
  | (db1, .ok result) =>
    match result.LastInsertId with
    | .error e => (db1, 0, some (.sql e))
    | .ok id => (db1, id, none)

/-- `SnippetModel.Get`: returns `(s, err)`. -/
def Get (db : DB) (c : Conn) (id : Int) : Option Snippet × Option GoError :=
  match db.QueryRowScan c id with
  | .error err =>
    if err.isErrNoRows then (none, some .ErrNoRecord) else (none, some (.sql err))
  | .ok s => (some s, none)

/-- The `for rows.Next()` loop of `Latest`: `acc` is the slice built so far; the
first failing `Scan` returns `(nil, err)`. -/
def latestLoop : List (Except SqlErr Snippet) → List Snippet →
    Except SqlErr (List Snippet)
  | [], acc => .ok acc
  | .error e :: _, _ => .error e
  | .ok s :: rest, acc => latestLoop rest (acc ++ [s])

/-- The body of `SnippetModel.Latest` once `m.DB.Query(stmt)` has returned. -/
def latestFrom (q : Except SqlErr Rows) : Option (List Snippet) × Option GoError :=
  match q with
  | .error err => (none, some (.sql err))
  | .ok rows =>
    match latestLoop rows.items [] with
    | .error err => (none, some (.sql err))
    | .ok snippets =>
      match rows.err with
      | some err => (none, some (.sql err))
      | none => (some snippets, none)

/-- `SnippetModel.Latest`: returns `(snippets, err)`. -/
def Latest (db : DB) (c : Conn) : Option (List Snippet) × Option GoError :=
  latestFrom (db.Query c)

/-! ## Validator (package `internal/validator`) -/

namespace validator

/-- Modelled from the spec: the package `internal/validator` is not part of the
sources. A validation result maps a field name to the ordered list of its messages
and carries a list of form-level messages. -/
structure Validator where
  FieldErrors : List (String × List String) := []
  NonFieldErrors : List String := []
  deriving DecidableEq

/-- Whitespace characters (the set of Go's `unicode.IsSpace`). -/
def isSpace (c : Char) : Bool :=
  let n := c.toNat
  n = 9 || n = 10 || n = 11 || n = 12 || n = 13 || n = 32 || n = 133 || n = 160 ||
  n = 5760 || (8192 ≤ n && n ≤ 8202) || n = 8232 || n = 8233 || n = 8239 ||
  n = 8287 || n = 12288

/-- Removes the surrounding whitespace of a string. -/
def TrimSpace (s : String) : String :=
  ⟨((s.data.dropWhile isSpace).reverse.dropWhile isSpace).reverse⟩

/-- Modelled from the spec: `NotBlank(s)` is true iff `s`, after trimming
surrounding whitespace, is non-empty. -/
def NotBlank (s : String) : Bool := TrimSpace s != ""

/-- Modelled from the spec: `MaxChars(s, n)` is true iff the character count of `s`
(code points, not bytes) is at most `n`. -/
def MaxChars (s : String) (n : Nat) : Bool := decide (s.length ≤ n)

/-- Modelled from the spec: `PermittedInt(v, allowed...)` is true iff `v` equals one
of the supplied integers. -/
def PermittedInt (v : Int) (allowed : List Int) : Bool := allowed.contains v

/-- Appends `msg` to the messages recorded under `key`. -/
def addMessage (key msg : String) : List (String × List String) → List (String × List String)
  | [] => [(key, [msg])]
  | (k, ms) :: rest =>
    if k = key then (k, ms ++ [msg]) :: rest else (k, ms) :: addMessage key msg rest

/-- The messages recorded under `key` (empty when there is no entry). -/
def messages (key : String) : List (String × List String) → List String
  | [] => []
  | (k, ms) :: rest => if k = key then ms else messages key rest

/-- Modelled from the spec: a failing check appends its message under the field;
several rules on the same field accumulate several messages. -/
def Validator.AddFieldError (v : Validator) (key msg : String) : Validator :=
  { v with FieldErrors := addMessage key msg v.FieldErrors }

/-- Modelled from the spec: `CheckField(ok, key, msg)` records `msg` under `key`
when the check `ok` failed, and does nothing otherwise. -/
def Validator.CheckField (v : Validator) (ok : Bool) (key msg : String) : Validator :=
  if !ok then v.AddFieldError key msg else v

/-- Modelled from the spec: `Valid()` is true iff both the field-error mapping and
the list of non-field errors are empty. -/
def Validator.Valid (v : Validator) : Bool :=
  v.FieldErrors.isEmpty && v.NonFieldErrors.isEmpty

end validator

/-! ## Handlers (`cmd/web/handlers.go`) -/

/-- The Go struct `snippetCreateForm`; the embedded `validator.Validator` is the
last field. -/
structure snippetCreateForm where
  Title : String := ""
  Content : String := ""
  Expires : Int := 0
  Validator : validator.Validator := {}
  deriving DecidableEq

/-- Promoted method `form.CheckField` of the embedded validator. -/
def snippetCreateForm.CheckField (form : snippetCreateForm) (ok : Bool) (key msg : String) :
    snippetCreateForm :=
  { form with Validator := form.Validator.CheckField ok key msg }

/-- Promoted method `form.Valid`. -/
def snippetCreateForm.Valid (form : snippetCreateForm) : Bool := form.Validator.Valid

/-- The payload handed to a view: the fields the handlers assign.
Modelled from the spec: the declaration of `templateData` is not part of the
sources; a view is rendered "with a data payload". -/
structure templateData where
  Snippet : Option Snippetbox.Snippet := none
  Snippets : Option (List Snippetbox.Snippet) := none
  Form : Option snippetCreateForm := none
  deriving DecidableEq

/-- What is written to the `http.ResponseWriter`. -/
inductive Body where
  | statusText
  | view (page : String) (data : templateData)
  | redirect (url : String)
  deriving DecidableEq

/-- One effect of a handler on its collaborators. -/
inductive Action where
  | storeLatest
  | storeGet (id : Int)
  | storeInsert (title content : String) (expires : Int)
  | logError (e : GoError)
  | sessionPut (key value : String)
  | respond (status : Nat) (body : Body)
  deriving DecidableEq

/-- An incoming request: the router parameters and the submitted form fields. -/
structure Request where
  params : List (String × String)
  PostForm : List (String × String)
  deriving DecidableEq

/-- The store as the handlers see it: the outcome of each method. -/
structure SnippetStore where
  Latest : Option (List Snippet) × Option GoError
  Get : Int → Option Snippet × Option GoError
  Insert : String → String → Int → Int × Option GoError

/-- The store backed by `SnippetModel` over a database state and a connection. -/
def SnippetModel (db : DB) (c : Conn) : SnippetStore :=
  { Latest := Latest db c
    Get := fun id => Get db c id
    Insert := fun title content expires => (Insert db c title content expires).2 }

/-- The Go struct `application`, reduced to what the handlers use. The helpers
`decodePostForm` and `newTemplateData` are not part of the sources and are taken
as they are given; the decoder skips the validator (tag `form:"-"`) and yields
title, content and expires. -/
structure application where
  snippets : SnippetStore
  decodePostForm : Request → Except GoError (String × String × Int)
  newTemplateData : Request → templateData

/-- Modelled from the spec: the helper `clientError` is not part of the sources; it
answers with the given client status. -/
def clientError (status : Nat) : List Action := [.respond status .statusText]

/-- Modelled from the spec: the helper `notFound` is not part of the sources; it
answers not-found (404). -/
def notFound : List Action := clientError 404

/-- Modelled from the spec: the helper `serverError` is not part of the sources; the
error is logged and a generic 500 is answered. -/
def serverError (err : GoError) : List Action := [.logError err, .respond 500 .statusText]

/-- Modelled from the spec: the helper `render` is not part of the sources; it
renders the named view with the data payload under the given status. -/
def render (status : Nat) (page : String) (data : templateData) : List Action :=
  [.respond status (.view page data)]

/-- The call `http.Redirect(w, r, url, code)`. -/
def Redirect (url : String) (code : Nat) : List Action := [.respond code (.redirect url)]

/-- The call `httprouter.Params.ByName`: value of the first parameter with that key,
the empty string when there is none. -/
def ByName (ps : List (String × String)) (name : String) : String :=
  match ps.find? (fun p => p.1 == name) with
  | some p => p.2
  | none => ""

/-- Value of a string of decimal digits, `none` when a character is not a digit. -/
def parseDigits : List Char → Nat → Option Nat
  | [], n => some n
  | ch :: rest, n =>
    if ch.toNat < 48 || 57 < ch.toNat then none
    else parseDigits rest (n * 10 + (ch.toNat - 48))

/-- The call `strconv.Atoi` on a 64-bit platform: an optional sign followed by at
least one decimal digit; a syntax error gives `(0, err)`, a value outside the range
of `int` gives the nearest bound and a range error. -/
def Atoi (s : String) : Int × Option GoError :=
  let neg := s.data.head? == some '-'
  let digits := if s.data.head? == some '-' || s.data.head? == some '+' then s.data.tail
                else s.data
  if digits.isEmpty then (0, some (.other "strconv.Atoi: invalid syntax"))
  else
    match parseDigits digits 0 with
    | none => (0, some (.other "strconv.Atoi: invalid syntax"))
    | some n =>
      if neg then
        if n > 2 ^ 63 then (-(2 ^ 63), some (.other "strconv.Atoi: value out of range"))
        else (-(n : Int), none)
      else
        if n ≥ 2 ^ 63 then (2 ^ 63 - 1, some (.other "strconv.Atoi: value out of range"))
        else ((n : Int), none)

/-- Handler `home`. -/
def home (app : application) (r : Request) : List Action :=
  .storeLatest ::
  match app.snippets.Latest with
  | (_, some err) => serverError err
  | (snippets, none) =>
    let data := app.newTemplateData r
    let data := { data with Snippets := snippets }
    render 200 "home.tmpl" data

/-- Handler `snippetView`. -/
def snippetView (app : application) (r : Request) : List Action :=
  let params := r.params
  let (id, err) := Atoi (ByName params "id")
  if err.isSome || id < 1 then notFound
  else
    .storeGet id ::
    match app.snippets.Get id with
    | (_, some err) =>
      if err.isErrNoRecord then notFound else serverError err
    | (snippet, none) =>
      let data := app.newTemplateData r
      let data := { data with Snippet := snippet }
      render 200 "view.tmpl" data

/-- Handler `snippetCreate`. -/
def snippetCreate (app : application) (r : Request) : List Action :=
  let data := app.newTemplateData r
  let data := { data with Form := some { Expires := 365 } }
  render 200 "create.tmpl" data

/-- The four `form.CheckField` calls of `snippetCreatePost`, in order. -/
def snippetCreateForm.checkFields (form : snippetCreateForm) : snippetCreateForm :=
  let form := form.CheckField (validator.NotBlank form.Title) "title"
    "This field cannot be blank"
  let form := form.CheckField (validator.MaxChars form.Title 100) "title"
    "This field cannot be more than 100 characters long"
  let form := form.CheckField (validator.NotBlank form.Content) "content"
    "This field cannot be blank"
  let form := form.CheckField (validator.PermittedInt form.Expires [1, 7, 365]) "expires"
    "This field must equal 1, 7 or 365"
  form

/-- The value of `form` after a successful `decodePostForm(r, &form)`: the three
decoded fields and the zero validator. -/
def decodedForm (title content : String) (expires : Int) : snippetCreateForm :=
  { Title := title, Content := content, Expires := expires }

/-- Handler `snippetCreatePost`. -/
def snippetCreatePost (app : application) (r : Request) : List Action :=
  match app.decodePostForm r with
  | .error _ => clientError 400
  | .ok (title, content, expires) =>
    let form := decodedForm title content expires
    let form := form.checkFields
    if !form.Valid then
      let data := app.newTemplateData r
      let data := { data with Form := some form }
      render 422 "create.tmpl" data
    else
      .storeInsert form.Title form.Content form.Expires ::
      match app.snippets.Insert form.Title form.Content form.Expires with
      | (_, some err) => serverError err
      | (id, none) =>
        .sessionPut "flash" "Snippet successfully created!" ::
        Redirect ("/snippet/view/" ++ toString id) 303

/-! ## Reading a trace -/

/-- Status codes written to the response, in order. -/
def statuses : List Action → List Nat
  | [] => []
  | .respond status _ :: rest => status :: statuses rest
  | _ :: rest => statuses rest

/-- Store calls issued, in order. -/
def storeCalls : List Action → List Action
  | [] => []
  | .storeLatest :: rest => .storeLatest :: storeCalls rest
  | .storeGet id :: rest => .storeGet id :: storeCalls rest
  | .storeInsert t c e :: rest => .storeInsert t c e :: storeCalls rest
  | _ :: rest => storeCalls rest

/-- Session writes, in order. -/
def sessionPuts : List Action → List (String × String)
  | [] => []
  | .sessionPut k v :: rest => (k, v) :: sessionPuts rest
  | _ :: rest => sessionPuts rest

/-- Views rendered, in order. -/
def views : List Action → List (String × templateData)
  | [] => []
  | .respond _ (.view page data) :: rest => (page, data) :: views rest
  | _ :: rest => views rest

/-- Redirect targets, in order. -/
def redirects : List Action → List String
  | [] => []
  | .respond _ (.redirect url) :: rest => url :: redirects rest
  | _ :: rest => redirects rest

/-! ## Example data -/

/-- A table with one expired row (id 1), one row expiring exactly at time 1000
(id 4) and two live rows. -/
def exDB : DB :=
  { snippets :=
      [ { id := 1, title := "old", content := "gone", created := 0, expires := 500 },
        { id := 2, title := "a", content := "x", created := 900, expires := 5000 },
        { id := 4, title := "b", content := "y", created := 950, expires := 1000 },
        { id := 3, title := "c", content := "z", created := 990, expires := 9000 } ],
    nextId := 5 }

/-- A cursor whose second row fails to scan. -/
def exRows : Rows :=
  { items := [.ok ⟨3, "c", "z", 990, 9000⟩, .error (.fault "converting column"),
              .ok ⟨1, "old", "gone", 0, 500⟩],
    err := none }

/-- A form binder in the sense of the spec: fields are matched by name and an
`expires` value that is not an integer is a decode error. -/
def exDecode (r : Request) : Except GoError (String × String × Int) :=
  match Atoi (ByName r.PostForm "expires") with
  | (_, some err) => .error err
  | (n, none) => .ok (ByName r.PostForm "title", ByName r.PostForm "content", n)

/-- An application over `exDB` at time 1000 with a healthy connection. -/
def exApp : application :=
  { snippets := SnippetModel exDB (Conn.healthy 1000)
    decodePostForm := exDecode
    newTemplateData := fun _ => {} }

/-- An application whose database connection refuses every statement. -/
def exDownApp : application :=
  { snippets := SnippetModel exDB
      { now := 1000, stmtErr := some (.fault "connection refused"), idErr := none,
        scanErr := fun _ => none, iterErr := none }
    decodePostForm := exDecode
    newTemplateData := fun _ => {} }

/-- A request for `/snippet/view/{id}`. -/
def viewRequest (id : String) : Request := { params := [("id", id)], PostForm := [] }

/-- A `POST /snippet/create` with the given body fields. -/
def createRequest (title content expires : String) : Request :=
  { params := [], PostForm := [("title", title), ("content", content), ("expires", expires)] }

/-! ## Lemmas on the store -/

theorem DB.mem_selectById {db : DB} {now id : Int} {r : Row} :
    r ∈ db.selectById now id ↔ r ∈ db.snippets ∧ r.expires > now ∧ r.id = id := by
  simp [DB.selectById, Row.live]

theorem DB.eq_of_id_eq {db : DB} (hwf : db.wf) {r r2 : Row} (hr : r ∈ db.snippets)
    (hr2 : r2 ∈ db.snippets) (h : r.id = r2.id) : r = r2 :=
  List.inj_on_of_nodup_map hwf.1 hr hr2 h

theorem Get_found {db : DB} {c : Conn} {id : Int} (hwf : db.wf) {r : Row}
    (hr : r ∈ db.snippets) (hid : r.id = id) (hlive : r.expires > c.now)
    (hstmt : c.stmtErr = none) (hscan : c.scanErr 0 = none) :
    Get db c id = (some r.scanInto, none) := by
  have hmem : r ∈ db.selectById c.now id := DB.mem_selectById.2 ⟨hr, hlive, hid⟩
  unfold Get DB.QueryRowScan
  rw [hstmt]
  cases hsel : db.selectById c.now id with
  | nil => rw [hsel] at hmem; cases hmem
  | cons r2 rest =>
    have h2 : r2 ∈ db.selectById c.now id := by rw [hsel]; exact List.mem_cons_self _ _
    obtain ⟨h2mem, _, h2id⟩ := DB.mem_selectById.1 h2
    have : r2 = r := DB.eq_of_id_eq hwf h2mem hr (h2id.trans hid.symm)
    subst this
    simp [hscan]

theorem Get_ok_inv {db : DB} {c : Conn} {id : Int} {s : Snippet}
    (h : Get db c id = (some s, none)) :
    ∃ r ∈ db.snippets, r.id = id ∧ r.expires > c.now ∧ s = r.scanInto := by
  unfold Get DB.QueryRowScan at h
  cases hstmt : c.stmtErr with
  | some e => simp only [hstmt] at h; split at h <;> simp at h
  | none =>
    simp only [hstmt] at h
    cases hsel : db.selectById c.now id with
    | nil => simp [hsel, SqlErr.isErrNoRows] at h
    | cons r rest =>
      have hmem : r ∈ db.selectById c.now id := by rw [hsel]; exact List.mem_cons_self _ _
      obtain ⟨hr, hlive, hid⟩ := DB.mem_selectById.1 hmem
      simp only [hsel] at h
      cases hscan : c.scanErr 0 with
      | some e => simp only [hscan] at h; split at h <;> simp at h
      | none =>
        simp only [hscan] at h
        refine ⟨r, hr, hid, hlive, ?_⟩
        simpa using h.symm

theorem Get_absent {db : DB} {c : Conn} {id : Int} (hstmt : c.stmtErr = none)
    (h : ∀ r ∈ db.snippets, r.id = id → r.expires ≤ c.now) :
    Get db c id = (none, some .ErrNoRecord) := by
  have hsel : db.selectById c.now id = [] := by
    apply List.eq_nil_iff_forall_not_mem.2
    intro r hr
    obtain ⟨hmem, hlive, hid⟩ := DB.mem_selectById.1 hr
    have := h r hmem hid
    omega
  simp [Get, DB.QueryRowScan, hstmt, hsel, SqlErr.isErrNoRows]

theorem Get_fault {db : DB} {c : Conn} {id : Int} {e : SqlErr} (he : e.isErrNoRows = false)
    (h : c.stmtErr = some e ∨
      (c.stmtErr = none ∧ db.selectById c.now id ≠ [] ∧ c.scanErr 0 = some e)) :
    Get db c id = (none, some (.sql e)) := by
  rcases h with h | ⟨h1, h2, h3⟩
  · simp [Get, DB.QueryRowScan, h, he]
  · cases hsel : db.selectById c.now id with
    | nil => exact absurd hsel h2
    | cons r rest => simp [Get, DB.QueryRowScan, h1, hsel, h3, he]

theorem scanItems_ok (c : Conn) (hscan : ∀ k, c.scanErr k = none) (k : Nat) (rs : List Row) :
    scanItems c k rs = rs.map (fun r => Except.ok r.scanInto) := by
  induction rs generalizing k with
  | nil => rfl
  | cons r rs ih => simp [scanItems, hscan, ih]

theorem latestLoop_ok (l acc : List Snippet) :
    latestLoop (l.map Except.ok) acc = .ok (acc ++ l) := by
  induction l generalizing acc with
  | nil => simp [latestLoop]
  | cons s l ih => simp [latestLoop, ih]

theorem Latest_healthy (db : DB) (c : Conn) (hstmt : c.stmtErr = none)
    (hscan : ∀ k, c.scanErr k = none) (hiter : c.iterErr = none) :
    Latest db c = (some ((db.selectLatest c.now).map Row.scanInto), none) := by
  have h := latestLoop_ok ((db.selectLatest c.now).map Row.scanInto) []
  simp only [List.map_map, List.nil_append] at h
  simp only [Latest, DB.Query, hstmt, hiter, latestFrom, scanItems_ok c hscan]
  have h2 : (fun r : Row => (Except.ok r.scanInto : Except SqlErr Snippet)) = Except.ok ∘ Row.scanInto := rfl
  rw [h2, h]

theorem DB.liveSorted_perm (db : DB) (now : Int) :
    (db.liveSorted now).Perm (db.snippets.filter (fun r => decide (r.expires > now))) :=
  List.perm_insertionSort _ _

theorem DB.liveSorted_desc (db : DB) (now : Int) (hwf : db.wf) :
    (db.liveSorted now).Pairwise (fun a b => a.id > b.id) := by
  have hs : (db.liveSorted now).Pairwise (fun a b => b.id ≤ a.id) :=
    List.sorted_insertionSort _ _
  have hnd : ((db.snippets.filter (fun r => r.live now)).map Row.id).Nodup :=
    (List.filter_sublist _).map Row.id |>.nodup hwf.1
  have hnd2 : ((db.liveSorted now).map Row.id).Nodup :=
    ((List.perm_insertionSort _ _).map Row.id).nodup_iff.2 hnd
  have hne : (db.liveSorted now).Pairwise (fun a b => a.id ≠ b.id) :=
    List.pairwise_map.1 hnd2
  exact (hs.and hne).imp (fun h => by omega)

theorem DB.insertStmt_wf (db : DB) (now : Int) (title content : String) (d : Int)
    (hwf : db.wf) : (db.insertStmt now title content d).1.wf := by
  obtain ⟨hnd, hlt⟩ := hwf
  constructor
  · simp only [DB.insertStmt, List.map_append, List.map_cons, List.map_nil]
    rw [List.nodup_append]
    refine ⟨hnd, List.nodup_singleton _, ?_⟩
    intro a ha hb
    rw [List.mem_singleton] at hb
    obtain ⟨r, hr, rfl⟩ := List.mem_map.1 ha
    have := hlt r hr
    omega
  · intro r hr
    simp only [DB.insertStmt, List.mem_append, List.mem_singleton] at hr
    rcases hr with hr | rfl
    · have := hlt r hr
      simp only [DB.insertStmt]; omega
    · simp [DB.insertStmt]

theorem Insert_ok_inv {db db1 : DB} {c : Conn} {title content : String} {d id : Int}
    (h : Insert db c title content d = (db1, id, none)) :
    db1 = (db.insertStmt c.now title content d).1 ∧ id = db.nextId := by
  unfold Insert DB.Exec at h
  cases hstmt : c.stmtErr with
  | some e => simp [hstmt] at h
  | none =>
    cases hid : c.idErr with
    | some e => simp [hstmt, hid, DB.insertStmt] at h
    | none =>
      simp [hstmt, hid, DB.insertStmt] at h
      obtain ⟨h1, h2⟩ := h
      subst h1 h2
      simp [DB.insertStmt]

theorem latestLoop_error (pre : List Snippet) (e : SqlErr)
    (post : List (Except SqlErr Snippet)) (acc : List Snippet) :
    latestLoop (pre.map Except.ok ++ Except.error e :: post) acc = .error e := by
  induction pre generalizing acc with
  | nil => simp [latestLoop]
  | cons s pre ih => simp [latestLoop, ih]

theorem latestLoop_ok_inv (items : List (Except SqlErr Snippet)) (acc out : List Snippet)
    (h : latestLoop items acc = .ok out) :
    ∃ l : List Snippet, items = l.map Except.ok ∧ out = acc ++ l := by
  induction items generalizing acc with
  | nil =>
    refine ⟨[], rfl, ?_⟩
    simp only [latestLoop, Except.ok.injEq] at h
    simp [h]
  | cons x rest ih =>
    cases x with
    | error e => simp [latestLoop] at h
    | ok s =>
      simp only [latestLoop] at h
      obtain ⟨l, hl, hout⟩ := ih _ h
      exact ⟨s :: l, by simp [hl], by simp [hout]⟩

theorem latestFrom_shape (q : Except SqlErr Rows) :
    (∃ l, latestFrom q = (some l, none)) ∨ (∃ e, latestFrom q = (none, some e)) := by
  unfold latestFrom
  cases q with
  | error e => exact Or.inr ⟨_, rfl⟩
  | ok rows =>
    cases h1 : latestLoop rows.items [] with
    | error e => exact Or.inr ⟨.sql e, by simp [h1]⟩
    | ok l =>
      cases h2 : rows.err with
      | some e => exact Or.inr ⟨.sql e, by simp [h1, h2]⟩
      | none => exact Or.inl ⟨l, by simp [h1, h2]⟩

/-! ## Lemmas on the validator -/

namespace validator

theorem addMessage_ne_nil (key msg : String) (m : List (String × List String)) :
    addMessage key msg m ≠ [] := by
  cases m with
  | nil => simp [addMessage]
  | cons p rest =>
    obtain ⟨k, ms⟩ := p
    simp only [addMessage]
    split <;> simp

theorem messages_addMessage_self (key msg : String) (m : List (String × List String)) :
    messages key (addMessage key msg m) = messages key m ++ [msg] := by
  induction m with
  | nil => simp [addMessage, messages]
  | cons p rest ih =>
    obtain ⟨k, ms⟩ := p
    by_cases h : k = key
    · simp [addMessage, messages, h]
    · simp [addMessage, messages, h, ih]

theorem mem_messages_addMessage {key x : String} (k2 msg : String)
    {m : List (String × List String)} (h : x ∈ messages key m) :
    x ∈ messages key (addMessage k2 msg m) := by
  induction m with
  | nil => simp [messages] at h
  | cons p rest ih =>
    obtain ⟨k, ms⟩ := p
    simp only [addMessage]
    by_cases h2 : k = k2
    · rw [if_pos h2]
      simp only [messages] at h ⊢
      by_cases h1 : k = key
      · rw [if_pos h1] at h ⊢; exact List.mem_append_left _ h
      · rw [if_neg h1] at h ⊢; exact h
    · rw [if_neg h2]
      simp only [messages] at h ⊢
      by_cases h1 : k = key
      · rw [if_pos h1] at h ⊢; exact h
      · rw [if_neg h1] at h ⊢; exact ih h

theorem CheckField_fail_mem (v : Validator) (key msg : String) :
    msg ∈ messages key (v.CheckField false key msg).FieldErrors := by
  simp [Validator.CheckField, Validator.AddFieldError, messages_addMessage_self]

theorem CheckField_mono (v : Validator) (ok : Bool) (k2 m2 : String) {key x : String}
    (h : x ∈ messages key v.FieldErrors) :
    x ∈ messages key (v.CheckField ok k2 m2).FieldErrors := by
  cases ok
  · simpa [Validator.CheckField, Validator.AddFieldError] using mem_messages_addMessage k2 m2 h
  · simpa [Validator.CheckField] using h

theorem CheckField_fail_invalid (v : Validator) (key msg : String) :
    (v.CheckField false key msg).Valid = false := by
  have := addMessage_ne_nil key msg v.FieldErrors
  simp [Validator.CheckField, Validator.AddFieldError, Validator.Valid, List.isEmpty_iff, this]

theorem CheckField_keeps_invalid (v : Validator) (ok : Bool) (key msg : String)
    (h : v.Valid = false) : (v.CheckField ok key msg).Valid = false := by
  cases ok
  · exact CheckField_fail_invalid v key msg
  · simpa [Validator.CheckField] using h

theorem CheckField_pass (v : Validator) (key msg : String) :
    v.CheckField true key msg = v := by
  simp [Validator.CheckField]

theorem dropWhile_all {p : Char → Bool} {l : List Char} (h : ∀ ch ∈ l, p ch = true) :
    l.dropWhile p = [] := by
  induction l with
  | nil => rfl
  | cons a l ih =>
    have ha := h a (List.mem_cons_self _ _)
    simp only [List.dropWhile, ha]
    exact ih (fun ch hch => h ch (List.mem_cons_of_mem _ hch))

theorem NotBlank_whitespace {s : String} (h : ∀ ch ∈ s.data, isSpace ch = true) :
    NotBlank s = false := by
  simp [NotBlank, TrimSpace, dropWhile_all h]

end validator

/-! ## Lemmas on the handlers -/

theorem checkFields_fields (form : snippetCreateForm) :
    form.checkFields.Title = form.Title ∧ form.checkFields.Content = form.Content ∧
    form.checkFields.Expires = form.Expires := ⟨rfl, rfl, rfl⟩

theorem checkFields_Validator (form : snippetCreateForm) :
    form.checkFields.Validator =
      (((form.Validator.CheckField (validator.NotBlank form.Title) "title"
            "This field cannot be blank").CheckField
          (validator.MaxChars form.Title 100) "title"
            "This field cannot be more than 100 characters long").CheckField
          (validator.NotBlank form.Content) "content" "This field cannot be blank").CheckField
          (validator.PermittedInt form.Expires [1, 7, 365]) "expires"
            "This field must equal 1, 7 or 365" := rfl

theorem checkFields_invalid_of_fail (form : snippetCreateForm)
    (h : validator.NotBlank form.Title = false ∨ validator.MaxChars form.Title 100 = false ∨
      validator.NotBlank form.Content = false ∨
      validator.PermittedInt form.Expires [1, 7, 365] = false) :
    form.checkFields.Valid = false := by
  unfold snippetCreateForm.Valid
  rw [checkFields_Validator]
  rcases h with h | h | h | h
  · rw [h]
    exact validator.CheckField_keeps_invalid _ _ _ _
      (validator.CheckField_keeps_invalid _ _ _ _
        (validator.CheckField_keeps_invalid _ _ _ _
          (validator.CheckField_fail_invalid _ _ _)))
  · rw [h]
    exact validator.CheckField_keeps_invalid _ _ _ _
      (validator.CheckField_keeps_invalid _ _ _ _
        (validator.CheckField_fail_invalid _ _ _))
  · rw [h]
    exact validator.CheckField_keeps_invalid _ _ _ _
      (validator.CheckField_fail_invalid _ _ _)
  · rw [h]
    exact validator.CheckField_fail_invalid _ _ _

theorem checkFields_pass (title content : String) (expires : Int)
    (h1 : validator.NotBlank title = true) (h2 : validator.MaxChars title 100 = true)
    (h3 : validator.NotBlank content = true)
    (h4 : validator.PermittedInt expires [1, 7, 365] = true) :
    (decodedForm title content expires).checkFields = decodedForm title content expires := by
  simp [snippetCreateForm.checkFields, snippetCreateForm.CheckField, decodedForm, h1, h2, h3, h4,
    validator.CheckField_pass]

theorem snippetCreatePost_invalid (app : application) (r : Request) (title content : String)
    (expires : Int) (hdec : app.decodePostForm r = .ok (title, content, expires))
    (hinv : (decodedForm title content expires).checkFields.Valid = false) :
    snippetCreatePost app r =
      render 422 "create.tmpl"
        { app.newTemplateData r with
          Form := some (decodedForm title content expires).checkFields } := by
  unfold snippetCreatePost
  simp only [hdec]
  change (if (!(decodedForm title content expires).checkFields.Valid) = true then _ else _) = _
  rw [hinv]
  rfl

theorem snippetCreatePost_valid (app : application) (r : Request) (title content : String)
    (expires : Int) (hdec : app.decodePostForm r = .ok (title, content, expires))
    (hval : (decodedForm title content expires).checkFields.Valid = true) :
    snippetCreatePost app r =
      .storeInsert title content expires ::
      match app.snippets.Insert title content expires with
      | (_, some err) => serverError err
      | (id, none) =>
        .sessionPut "flash" "Snippet successfully created!" ::
        Redirect ("/snippet/view/" ++ toString id) 303 := by
  unfold snippetCreatePost
  simp only [hdec]
  change (if (!(decodedForm title content expires).checkFields.Valid) = true then _ else _) = _
  rw [hval]
  rfl

theorem PermittedInt_expires (expires : Int) :
    validator.PermittedInt expires [1, 7, 365] = true ↔
      (expires = 1 ∨ expires = 7 ∨ expires = 365) := by
  simp [validator.PermittedInt]

theorem snippetView_unfold (app : application) (r : Request) :
    snippetView app r =
      if (Atoi (ByName r.params "id")).2.isSome || decide ((Atoi (ByName r.params "id")).1 < 1)
      then notFound
      else
        .storeGet (Atoi (ByName r.params "id")).1 ::
        match app.snippets.Get (Atoi (ByName r.params "id")).1 with
        | (_, some err) => if err.isErrNoRecord then notFound else serverError err
        | (snippet, none) =>
          render 200 "view.tmpl" { app.newTemplateData r with Snippet := snippet } := rfl

/-! ## The claims -/

/-- C1: when the "id" path parameter does not parse (`strconv.Atoi` returns an error)
or parses to a value below 1, `snippetView` does exactly what `notFound` does: the
only response is a 404 and no store call is issued, in particular no `Get`. -/
theorem snippetView_bad_id_notFound (app : application) (r : Request)
    (h : (Atoi (ByName r.params "id")).2 ≠ none ∨ (Atoi (ByName r.params "id")).1 < 1) :
    snippetView app r = notFound ∧
    statuses (snippetView app r) = [404] ∧
    storeCalls (snippetView app r) = [] ∧
    ∀ id, Action.storeGet id ∉ snippetView app r := by
  have hv : snippetView app r = notFound := by
    rw [snippetView_unfold]
    rcases h with h | h
    · rw [if_pos]
      simp [Option.isSome_iff_ne_none, h]
    · rw [if_pos]
      simp [h]
  rw [hv]
  simp [notFound, clientError, statuses, storeCalls]

/-- Witness for C1: the ids "abc" (no integer) and "0" (below 1). -/
theorem snippetView_bad_id_notFound_witness :
    (Atoi (ByName (viewRequest "abc").params "id")).2 ≠ none ∧
    statuses (snippetView exApp (viewRequest "abc")) = [404] ∧
    storeCalls (snippetView exApp (viewRequest "abc")) = [] ∧
    (Atoi (ByName (viewRequest "0").params "id")).1 < 1 ∧
    statuses (snippetView exApp (viewRequest "0")) = [404] ∧
    storeCalls (snippetView exApp (viewRequest "0")) = [] :=
  ⟨by decide,
   (snippetView_bad_id_notFound exApp (viewRequest "abc") (Or.inl (by decide))).2.1,
   (snippetView_bad_id_notFound exApp (viewRequest "abc") (Or.inl (by decide))).2.2.1,
   by decide,
   (snippetView_bad_id_notFound exApp (viewRequest "0") (Or.inr (by decide))).2.1,
   (snippetView_bad_id_notFound exApp (viewRequest "0") (Or.inr (by decide))).2.2.1⟩

/-- C2: a submission that decodes and whose `Expires` is none of 1, 7, 365 (whatever
title and content) is not `Valid`, has the message of the expires rule recorded under
"expires", is answered by re-rendering `create.tmpl` with status 422 and the checked
form, and causes no store call (no `Insert`), no session write (no flash) and no
redirect. -/
theorem snippetCreatePost_bad_expires (app : application) (r : Request)
    (title content : String) (expires : Int)
    (hdec : app.decodePostForm r = .ok (title, content, expires))
    (hexp : expires ≠ 1 ∧ expires ≠ 7 ∧ expires ≠ 365) :
    (decodedForm title content expires).checkFields.Valid = false ∧
    "This field must equal 1, 7 or 365" ∈
      validator.messages "expires"
        (decodedForm title content expires).checkFields.Validator.FieldErrors ∧
    snippetCreatePost app r =
      render 422 "create.tmpl"
        { app.newTemplateData r with
          Form := some (decodedForm title content expires).checkFields } ∧
    statuses (snippetCreatePost app r) = [422] ∧
    storeCalls (snippetCreatePost app r) = [] ∧
    sessionPuts (snippetCreatePost app r) = [] ∧
    redirects (snippetCreatePost app r) = [] := by
  have hp : validator.PermittedInt expires [1, 7, 365] = false := by
    rw [← Bool.not_eq_true, PermittedInt_expires]
    omega
  have hinv : (decodedForm title content expires).checkFields.Valid = false :=
    checkFields_invalid_of_fail _ (Or.inr (Or.inr (Or.inr hp)))
  refine ⟨hinv, ?_, snippetCreatePost_invalid app r title content expires hdec hinv, ?_⟩
  · rw [checkFields_Validator]
    change _ ∈ validator.messages "expires"
      (validator.Validator.CheckField _ (validator.PermittedInt expires [1, 7, 365]) _ _).FieldErrors
    rw [hp]
    exact validator.CheckField_fail_mem _ _ _
  · rw [snippetCreatePost_invalid app r title content expires hdec hinv]
    simp [render, statuses, storeCalls, sessionPuts, redirects]

/-- Witness for C2: a valid title and content with expires = 2. -/
theorem snippetCreatePost_bad_expires_witness :
    exApp.decodePostForm (createRequest "T" "C" "2") = .ok ("T", "C", 2) ∧
    statuses (snippetCreatePost exApp (createRequest "T" "C" "2")) = [422] ∧
    storeCalls (snippetCreatePost exApp (createRequest "T" "C" "2")) = [] ∧
    sessionPuts (snippetCreatePost exApp (createRequest "T" "C" "2")) = [] :=
  ⟨rfl,
   (snippetCreatePost_bad_expires exApp (createRequest "T" "C" "2") "T" "C" 2 rfl
     (by decide)).2.2.2.1,
   (snippetCreatePost_bad_expires exApp (createRequest "T" "C" "2") "T" "C" 2 rfl
     (by decide)).2.2.2.2.1,
   (snippetCreatePost_bad_expires exApp (createRequest "T" "C" "2") "T" "C" 2 rfl
     (by decide)).2.2.2.2.2.1⟩

/-- C3: on a table with unique identifiers, at every time `c.now` and for every `id`:
(1) if a row with that id exists and expires strictly after now (and the driver
reports no failure), `Get` returns `(s, nil)` with `s.ID = id` and the title,
content, created and expires of that row; (2) conversely `Get` returns a snippet
only from such a row; (3) when no row has the id or the row has `expires <= now`,
`Get` returns `(nil, ErrNoRecord)`, the same value in both cases; (4) every other
failure `e` of the row scan (one that is not `sql.ErrNoRows`) is returned as it is,
and is not `ErrNoRecord`. -/
theorem Get_live_or_ErrNoRecord (db : DB) (c : Conn) (id : Int) (hwf : db.wf) :
    (∀ r ∈ db.snippets, r.id = id → r.expires > c.now →
        c.stmtErr = none → c.scanErr 0 = none →
        Get db c id = (some ⟨id, r.title, r.content, r.created, r.expires⟩, none)) ∧
    (∀ s, Get db c id = (some s, none) →
        ∃ r ∈ db.snippets, r.id = id ∧ r.expires > c.now ∧
          s = ⟨id, r.title, r.content, r.created, r.expires⟩) ∧
    (c.stmtErr = none → (∀ r ∈ db.snippets, r.id = id → r.expires ≤ c.now) →
        Get db c id = (none, some .ErrNoRecord)) ∧
    (∀ e : SqlErr, e.isErrNoRows = false →
        (c.stmtErr = some e ∨
          (c.stmtErr = none ∧ db.selectById c.now id ≠ [] ∧ c.scanErr 0 = some e)) →
        Get db c id = (none, some (.sql e)) ∧ (GoError.sql e).isErrNoRecord = false ∧
          GoError.sql e ≠ .ErrNoRecord) := by
  refine ⟨?_, ?_, ?_, ?_⟩
  · intro r hr hid hlive hstmt hscan
    rw [Get_found hwf hr hid hlive hstmt hscan]
    simp [Row.scanInto, hid]
  · intro s hs
    obtain ⟨r, hr, hid, hlive, rfl⟩ := Get_ok_inv hs
    exact ⟨r, hr, hid, hlive, by simp [Row.scanInto, hid]⟩
  · exact fun hstmt h => Get_absent hstmt h
  · intro e he h
    exact ⟨Get_fault he h, rfl, by simp⟩

/-- Witness for C3: in `exDB` at time 1000, id 2 is live, id 1 is expired, id 4
expires exactly now and id 9 does not exist. -/
theorem Get_live_or_ErrNoRecord_witness :
    exDB.wf ∧
    Get exDB (Conn.healthy 1000) 2 = (some ⟨2, "a", "x", 900, 5000⟩, none) ∧
    Get exDB (Conn.healthy 1000) 1 = (none, some .ErrNoRecord) ∧
    Get exDB (Conn.healthy 1000) 4 = (none, some .ErrNoRecord) ∧
    Get exDB (Conn.healthy 1000) 9 = (none, some .ErrNoRecord) :=
  ⟨by decide,
   (Get_live_or_ErrNoRecord exDB (Conn.healthy 1000) 2 (by decide)).1
     ⟨2, "a", "x", 900, 5000⟩ (by decide) rfl (by decide) rfl rfl,
   (Get_live_or_ErrNoRecord exDB (Conn.healthy 1000) 1 (by decide)).2.2.1 rfl (by decide),
   (Get_live_or_ErrNoRecord exDB (Conn.healthy 1000) 4 (by decide)).2.2.1 rfl (by decide),
   (Get_live_or_ErrNoRecord exDB (Conn.healthy 1000) 9 (by decide)).2.2.1 rfl (by decide)⟩

/-- C4: on a table with unique identifiers, when the query, every row scan and the
iteration succeed, `Latest` returns with a nil error the live rows (`expires > now`)
sorted by id in strictly descending order and cut to the first 10. Hence the result
has at most 10 entries, every entry is live, the entries are strictly descending in
`ID`, every live row left out has a smaller id than every returned one, and with no
live row the result is the empty, non-nil slice. -/
theorem Latest_live_desc_first10 (db : DB) (c : Conn) (hwf : db.wf)
    (hstmt : c.stmtErr = none) (hscan : ∀ k, c.scanErr k = none) (hiter : c.iterErr = none) :
    ∃ (sorted : List Row) (out : List Snippet),
      sorted.Perm (db.snippets.filter (fun r => decide (r.expires > c.now))) ∧
      sorted.Pairwise (fun a b => a.id > b.id) ∧
      out = (sorted.take 10).map Row.scanInto ∧
      Latest db c = (some out, none) ∧
      out.length ≤ 10 ∧
      (∀ s ∈ out, s.Expires > c.now) ∧
      out.Pairwise (fun a b => a.ID > b.ID) ∧
      (∀ r ∈ db.snippets, r.expires > c.now → r.scanInto ∉ out → ∀ s ∈ out, r.id < s.ID) ∧
      ((∀ r ∈ db.snippets, r.expires ≤ c.now) → out = []) := by
  have hperm := db.liveSorted_perm c.now
  have hdesc := db.liveSorted_desc c.now hwf
  have hlive : ∀ r ∈ db.liveSorted c.now, r ∈ db.snippets ∧ r.expires > c.now := by
    intro r hr
    have := (hperm.mem_iff).1 hr
    simpa using this
  refine ⟨db.liveSorted c.now, ((db.liveSorted c.now).take 10).map Row.scanInto,
    hperm, hdesc, rfl, ?_, ?_, ?_, ?_, ?_, ?_⟩
  · exact Latest_healthy db c hstmt hscan hiter
  · simp [List.length_take]
  · intro s hs
    obtain ⟨r, hr, rfl⟩ := List.mem_map.1 hs
    exact (hlive r (List.mem_of_mem_take hr)).2
  · rw [List.pairwise_map]
    exact (hdesc.sublist (List.take_sublist _ _)).imp (fun h => h)
  · intro r hr hrl hnot s hs
    obtain ⟨a, ha, rfl⟩ := List.mem_map.1 hs
    have hrs : r ∈ db.liveSorted c.now := (hperm.mem_iff).2 (by simpa using ⟨hr, hrl⟩)
    have hrt : r ∉ (db.liveSorted c.now).take 10 := fun h => hnot (List.mem_map_of_mem _ h)
    rw [← List.take_append_drop 10 (db.liveSorted c.now)] at hrs hdesc
    have hrd : r ∈ (db.liveSorted c.now).drop 10 := by
      rcases List.mem_append.1 hrs with h | h
      · exact absurd h hrt
      · exact h
    exact (List.pairwise_append.1 hdesc).2.2 a ha r hrd
  · intro h
    have hnil : db.snippets.filter (fun r => decide (r.expires > c.now)) = [] := by
      apply List.eq_nil_iff_forall_not_mem.2
      intro r hr
      have hh := List.mem_filter.1 hr
      have := h r hh.1
      have h3 : r.expires > c.now := by simpa using hh.2
      omega
    rw [hnil] at hperm
    simp [hperm.eq_nil]

/-- Witness for C4: `exDB` at time 1000 on a healthy connection. -/
theorem Latest_live_desc_first10_witness :
    exDB.wf ∧
    ∃ out : List Snippet, Latest exDB (Conn.healthy 1000) = (some out, none) ∧
      out.length ≤ 10 ∧ (∀ s ∈ out, s.Expires > 1000) ∧
      out.Pairwise (fun a b => a.ID > b.ID) :=
  ⟨by decide,
   match Latest_live_desc_first10 exDB (Conn.healthy 1000) (by decide) rfl (fun _ => rfl) rfl with
   | ⟨_, out, _, _, _, h, hlen, hlive, hdesc, _⟩ => ⟨out, h, hlen, hlive, hdesc⟩⟩

/-- C5: on a table with unique identifiers below the auto-increment counter, for
every title, content and day count `d` in 1, 7, 365: if `Insert` succeeds and returns
`id`, then `Get(id)` at the same current time (with no driver failure) returns
`(s, nil)` with `s.ID = id`, the inserted title and content, `s.Created` the insert
time and `s.Expires - s.Created` exactly `d` days; it does not report `ErrNoRecord`. -/
theorem Insert_then_Get (db : DB) (c c2 : Conn) (title content : String) (d : Int)
    (db1 : DB) (id : Int) (hwf : db.wf) (hd : d = 1 ∨ d = 7 ∨ d = 365)
    (hins : Insert db c title content d = (db1, id, none))
    (hnow : c2.now = c.now) (hstmt : c2.stmtErr = none) (hscan : c2.scanErr 0 = none) :
    ∃ s : Snippet, Get db1 c2 id = (some s, none) ∧
      s.ID = id ∧ s.Title = title ∧ s.Content = content ∧ s.Created = c.now ∧
      s.Expires - s.Created = d * secondsPerDay ∧
      Get db1 c2 id ≠ (none, some .ErrNoRecord) := by
  obtain ⟨rfl, rfl⟩ := Insert_ok_inv hins
  have hwf1 := db.insertStmt_wf c.now title content d hwf
  have hmem : (⟨db.nextId, title, content, c.now, c.now + d * secondsPerDay⟩ : Row) ∈
      (db.insertStmt c.now title content d).1.snippets := by
    simp [DB.insertStmt]
  have hlive : (⟨db.nextId, title, content, c.now, c.now + d * secondsPerDay⟩ : Row).expires
      > c2.now := by
    simp only [secondsPerDay, hnow]
    rcases hd with rfl | rfl | rfl <;> omega
  have hget := Get_found hwf1 hmem rfl hlive hstmt hscan
  refine ⟨_, hget, rfl, rfl, rfl, rfl, ?_, ?_⟩
  · simp [Row.scanInto]
  · rw [hget]; simp

/-- Witness for C5: inserting ("Test title", "Test content", 7) into `exDB` at time
1000 returns id 5. -/
theorem Insert_then_Get_witness :
    exDB.wf ∧
    Insert exDB (Conn.healthy 1000) "Test title" "Test content" 7 =
      ((Insert exDB (Conn.healthy 1000) "Test title" "Test content" 7).1, 5, none) ∧
    ∃ s : Snippet,
      Get (Insert exDB (Conn.healthy 1000) "Test title" "Test content" 7).1
        (Conn.healthy 1000) 5 = (some s, none) ∧
      s.Title = "Test title" ∧ s.Content = "Test content" ∧
      s.Expires - s.Created = 7 * secondsPerDay :=
  ⟨by decide, rfl,
   match Insert_then_Get exDB (Conn.healthy 1000) (Conn.healthy 1000) "Test title"
       "Test content" 7 (Insert exDB (Conn.healthy 1000) "Test title" "Test content" 7).1 5
       (by decide) (by decide) rfl rfl rfl rfl with
   | ⟨s, h, _, ht, hc, _, hd, _⟩ => ⟨s, h, ht, hc, hd⟩⟩

/-- C6: for every result set iterated by `Latest`: (1) if the scan of a row fails,
after any number of rows scanned and appended successfully, the result is
`(nil, err)` with that error; (2) if all scans succeed and `rows.Err()` is non-nil,
the result is `(nil, err)` with that error; (3) the result is always either a slice
with a nil error or a nil slice with an error, never a slice beside an error;
(4) a nil error is returned only when the query succeeded, every delivered row
scanned and `rows.Err()` is nil, the slice then holding every delivered row in
order; (5) the same shape holds for `Latest` on every database and connection. -/
theorem Latest_fault_discards_all :
    (∀ (rows : Rows) (pre : List Snippet) (e : SqlErr) (post : List (Except SqlErr Snippet)),
        rows.items = pre.map Except.ok ++ Except.error e :: post →
        latestFrom (.ok rows) = (none, some (.sql e))) ∧
    (∀ (rows : Rows) (all : List Snippet) (e : SqlErr),
        rows.items = all.map Except.ok → rows.err = some e →
        latestFrom (.ok rows) = (none, some (.sql e))) ∧
    (∀ q : Except SqlErr Rows,
        (∃ l, latestFrom q = (some l, none)) ∨ (∃ e, latestFrom q = (none, some e))) ∧
    (∀ (q : Except SqlErr Rows) (l : List Snippet), (latestFrom q).2 = none →
        (latestFrom q).1 = some l →
        ∃ rows, q = .ok rows ∧ rows.items = l.map Except.ok ∧ rows.err = none) ∧
    (∀ (db : DB) (c : Conn),
        (∃ l, Latest db c = (some l, none)) ∨ (∃ e, Latest db c = (none, some e))) := by
  refine ⟨?_, ?_, latestFrom_shape, ?_, fun db c => latestFrom_shape _⟩
  · intro rows pre e post h
    simp [latestFrom, h, latestLoop_error]
  · intro rows all e h1 h2
    simp [latestFrom, h1, h2, latestLoop_ok]
  · intro q l h1 h2
    unfold latestFrom at h1 h2
    cases q with
    | error e => simp at h1
    | ok rows =>
      cases hl : latestLoop rows.items [] with
      | error e => simp [hl] at h1
      | ok out =>
        cases he : rows.err with
        | some e => simp [hl, he] at h1
        | none =>
          simp only [hl, he, Option.some.injEq] at h2
          obtain ⟨l2, hitems, hout⟩ := latestLoop_ok_inv _ _ _ hl
          refine ⟨rows, rfl, ?_, he⟩
          rw [hitems, ← h2, hout]; simp

/-- Witness for C6: in `exRows` the second scan fails after the first row was
appended. -/
theorem Latest_fault_discards_all_witness :
    latestFrom (.ok exRows) = (none, some (.sql (.fault "converting column"))) :=
  Latest_fault_discards_all.1 exRows [⟨3, "c", "z", 990, 9000⟩] (.fault "converting column")
    [.ok ⟨1, "old", "gone", 0, 500⟩] rfl

/-- C7: a submission that decodes and passes the four rules (title not blank, title
at most 100 characters, content not blank, expires one of 1, 7, 365) makes exactly
one store call, `Insert` with the submitted title, content and expires; and when
that returns `id` without error the handler writes "Snippet successfully created!"
under the session key "flash" and then answers 303 with the redirect target
"/snippet/view/" followed by the decimal rendering of `id`. -/
theorem snippetCreatePost_valid_inserts_and_redirects (app : application) (r : Request)
    (title content : String) (expires : Int)
    (hdec : app.decodePostForm r = .ok (title, content, expires))
    (h1 : validator.NotBlank title = true) (h2 : title.length ≤ 100)
    (h3 : validator.NotBlank content = true)
    (h4 : expires = 1 ∨ expires = 7 ∨ expires = 365) :
    storeCalls (snippetCreatePost app r) = [.storeInsert title content expires] ∧
    ∀ id, app.snippets.Insert title content expires = (id, none) →
      snippetCreatePost app r =
        [.storeInsert title content expires,
         .sessionPut "flash" "Snippet successfully created!",
         .respond 303 (.redirect ("/snippet/view/" ++ toString id))] := by
  have hpass := checkFields_pass title content expires h1 (by simp [validator.MaxChars, h2]) h3
    ((PermittedInt_expires expires).2 h4)
  have hval : (decodedForm title content expires).checkFields.Valid = true := by
    rw [hpass]; rfl
  have hrun := snippetCreatePost_valid app r title content expires hdec hval
  constructor
  · rw [hrun]
    rcases hI : app.snippets.Insert title content expires with ⟨id, err⟩
    cases err <;> simp [storeCalls, serverError, Redirect]
  · intro id hI
    rw [hrun, hI]
    rfl

/-- Witness for C7: a valid submission to `exApp`, whose store assigns id 5. -/
theorem snippetCreatePost_valid_inserts_and_redirects_witness :
    exApp.decodePostForm (createRequest "Test title" "Test content" "7") =
      .ok ("Test title", "Test content", 7) ∧
    exApp.snippets.Insert "Test title" "Test content" 7 = (5, none) ∧
    snippetCreatePost exApp (createRequest "Test title" "Test content" "7") =
      [.storeInsert "Test title" "Test content" 7,
       .sessionPut "flash" "Snippet successfully created!",
       .respond 303 (.redirect "/snippet/view/5")] :=
  ⟨rfl, rfl,
   (snippetCreatePost_valid_inserts_and_redirects exApp
     (createRequest "Test title" "Test content" "7") "Test title" "Test content" 7 rfl
     (by decide) (by decide) (by decide) (by decide)).2 5 rfl⟩

/-- C8: no handler suppresses a store error `e`: (i) `home` with `Latest` failing logs
`e`, answers 500 and renders no view; (ii) `snippetView` (id parsed, at least 1) with
`Get` failing answers 404 when `errors.Is(e, ErrNoRecord)` and 500 otherwise, renders
no view, the only store call being that `Get`; (iii) `snippetCreatePost` (decoded,
valid) with `Insert` failing logs `e`, answers 500, writes no flash and issues no
redirect. The only statuses written are 404 and 500, never 200 or 303. -/
theorem handlers_surface_store_errors (app : application) (r : Request) (e : GoError) :
    (app.snippets.Latest.2 = some e →
      home app r = [.storeLatest, .logError e, .respond 500 .statusText] ∧
      statuses (home app r) = [500] ∧ views (home app r) = []) ∧
    (∀ id, Atoi (ByName r.params "id") = (id, none) → 1 ≤ id →
      (app.snippets.Get id).2 = some e →
      statuses (snippetView app r) = [if e.isErrNoRecord then 404 else 500] ∧
      views (snippetView app r) = [] ∧
      storeCalls (snippetView app r) = [.storeGet id] ∧
      (e = .ErrNoRecord → statuses (snippetView app r) = [404])) ∧
    (∀ title content expires, app.decodePostForm r = .ok (title, content, expires) →
      (decodedForm title content expires).checkFields.Valid = true →
      (app.snippets.Insert title content expires).2 = some e →
      snippetCreatePost app r =
        [.storeInsert title content expires, .logError e, .respond 500 .statusText] ∧
      statuses (snippetCreatePost app r) = [500] ∧
      sessionPuts (snippetCreatePost app r) = [] ∧
      redirects (snippetCreatePost app r) = []) := by
  refine ⟨?_, ?_, ?_⟩
  · intro h
    have hh : home app r = [.storeLatest, .logError e, .respond 500 .statusText] := by
      unfold home
      rcases hL : app.snippets.Latest with ⟨l, err⟩
      rw [hL] at h
      simp only at h
      subst h
      rfl
    rw [hh]
    simp [statuses, views]
  · intro id hA hid hG
    have hv : snippetView app r =
        .storeGet id :: (if e.isErrNoRecord then notFound else serverError e) := by
      rw [snippetView_unfold, hA]
      rcases hG2 : app.snippets.Get id with ⟨s, err⟩
      rw [hG2] at hG
      simp only at hG
      subst hG
      have : ¬ id < 1 := by omega
      simp [this, hG2]
    rw [hv]
    refine ⟨?_, ?_, ?_, ?_⟩
    · cases e.isErrNoRecord <;> simp [statuses, notFound, clientError, serverError]
    · cases e.isErrNoRecord <;> simp [views, notFound, clientError, serverError]
    · cases e.isErrNoRecord <;> simp [storeCalls, notFound, clientError, serverError]
    · intro he
      subst he
      simp [statuses, notFound, clientError, GoError.isErrNoRecord]
  · intro title content expires hdec hval hI
    have hrun := snippetCreatePost_valid app r title content expires hdec hval
    have hh : snippetCreatePost app r =
        [.storeInsert title content expires, .logError e, .respond 500 .statusText] := by
      rw [hrun]
      rcases hI2 : app.snippets.Insert title content expires with ⟨id, err⟩
      rw [hI2] at hI
      simp only at hI
      subst hI
      rfl
    rw [hh]
    simp [statuses, sessionPuts, redirects]

/-- Witness for C8: every statement fails on the connection of `exDownApp`. -/
theorem handlers_surface_store_errors_witness :
    statuses (home exDownApp (viewRequest "2")) = [500] ∧
    statuses (snippetView exDownApp (viewRequest "2")) = [500] ∧
    statuses (snippetCreatePost exDownApp (createRequest "T" "C" "7")) = [500] ∧
    sessionPuts (snippetCreatePost exDownApp (createRequest "T" "C" "7")) = [] :=
  ⟨((handlers_surface_store_errors exDownApp (viewRequest "2")
      (.sql (.fault "connection refused"))).1 rfl).2.1,
   ((handlers_surface_store_errors exDownApp (viewRequest "2")
      (.sql (.fault "connection refused"))).2.1 2 rfl (by decide) rfl).1,
   ((handlers_surface_store_errors exDownApp (createRequest "T" "C" "7")
      (.sql (.fault "connection refused"))).2.2 "T" "C" 7 rfl (by decide) rfl).2.1,
   ((handlers_surface_store_errors exDownApp (createRequest "T" "C" "7")
      (.sql (.fault "connection refused"))).2.2 "T" "C" 7 rfl (by decide) rfl).2.2.1⟩

/-- C9: for a submission that decodes and fails at least one of the four rules, the
response is `create.tmpl` with status 422 and a form whose `Title`, `Content` and
`Expires` equal the decoded values; the four checks never change these three fields
of any form; the value 365 is only what the GET handler `snippetCreate` puts into
its empty form. -/
theorem snippetCreatePost_echoes_submission (app : application) (r : Request)
    (title content : String) (expires : Int)
    (hdec : app.decodePostForm r = .ok (title, content, expires))
    (hfail : validator.NotBlank title = false ∨ validator.MaxChars title 100 = false ∨
      validator.NotBlank content = false ∨
      validator.PermittedInt expires [1, 7, 365] = false) :
    (∃ f : snippetCreateForm,
      snippetCreatePost app r =
        [.respond 422 (.view "create.tmpl" { app.newTemplateData r with Form := some f })] ∧
      f.Title = title ∧ f.Content = content ∧ f.Expires = expires) ∧
    (∀ g : snippetCreateForm, g.checkFields.Title = g.Title ∧
      g.checkFields.Content = g.Content ∧ g.checkFields.Expires = g.Expires) ∧
    snippetCreate app r =
      [.respond 200 (.view "create.tmpl"
        { app.newTemplateData r with Form := some { Expires := 365 } })] := by
  have hinv := checkFields_invalid_of_fail (decodedForm title content expires) hfail
  refine ⟨⟨_, snippetCreatePost_invalid app r title content expires hdec hinv, rfl, rfl, rfl⟩,
    checkFields_fields, rfl⟩

/-- Witness for C9: the submission ("", "C", 1) fails the blank-title rule and is
echoed back with expires 1. -/
theorem snippetCreatePost_echoes_submission_witness :
    validator.NotBlank "" = false ∧
    ∃ f : snippetCreateForm,
      snippetCreatePost exApp (createRequest "" "C" "1") =
        [.respond 422 (.view "create.tmpl"
          { exApp.newTemplateData (createRequest "" "C" "1") with Form := some f })] ∧
      f.Title = "" ∧ f.Content = "C" ∧ f.Expires = 1 :=
  ⟨by decide,
   (snippetCreatePost_echoes_submission exApp (createRequest "" "C" "1") "" "C" 1 rfl
     (Or.inl (by decide))).1⟩

/-- C10: a submission that decodes and whose title is empty or consists only of
whitespace (whatever content and expires) is not `Valid`, has the message "This field
cannot be blank" recorded under "title", is answered with status 422, and causes no
store call (no `Insert`). -/
theorem snippetCreatePost_blank_title (app : application) (r : Request)
    (title content : String) (expires : Int)
    (hdec : app.decodePostForm r = .ok (title, content, expires))
    (hblank : ∀ ch ∈ title.data, validator.isSpace ch = true) :
    (decodedForm title content expires).checkFields.Valid = false ∧
    "This field cannot be blank" ∈
      validator.messages "title"
        (decodedForm title content expires).checkFields.Validator.FieldErrors ∧
    statuses (snippetCreatePost app r) = [422] ∧
    storeCalls (snippetCreatePost app r) = [] := by
  have hnb : validator.NotBlank title = false := validator.NotBlank_whitespace hblank
  have hinv : (decodedForm title content expires).checkFields.Valid = false :=
    checkFields_invalid_of_fail _ (Or.inl hnb)
  refine ⟨hinv, ?_, ?_⟩
  · rw [checkFields_Validator]
    apply validator.CheckField_mono
    apply validator.CheckField_mono
    apply validator.CheckField_mono
    change _ ∈ validator.messages "title"
      (validator.Validator.CheckField _ (validator.NotBlank title) _ _).FieldErrors
    rw [hnb]
    exact validator.CheckField_fail_mem _ _ _
  · rw [snippetCreatePost_invalid app r title content expires hdec hinv]
    simp [render, statuses, storeCalls]

/-- Witness for C10: title = "". -/
theorem snippetCreatePost_blank_title_witness :
    (decodedForm "" "Test content" 7).checkFields.Valid = false ∧
    "This field cannot be blank" ∈
      validator.messages "title"
        (decodedForm "" "Test content" 7).checkFields.Validator.FieldErrors ∧
    statuses (snippetCreatePost exApp (createRequest "" "Test content" "7")) = [422] ∧
    storeCalls (snippetCreatePost exApp (createRequest "" "Test content" "7")) = [] :=
  snippetCreatePost_blank_title exApp (createRequest "" "Test content" "7") "" "Test content" 7
    rfl (by decide)

end Snippetbox
